import Mathlib

/-!
Shallow embedding of the Novel_v3 rule-compilation and extraction core
(backend services `legado_service.py`, API layer `search.py` / `books.py`,
download pipeline `download_service.py`, and the vendored
`LegadoParser2/Explore.py` batch extractor), together with theorems
checking the natural-language specification against it.
-/

namespace Novel

/-- Python's `needle in hay` substring test, over the underlying character
lists. -/
def strContains (hay needle : String) : Bool :=
  decide (needle.toList <:+: hay.toList)

/-- Python's `str.lower()` (ASCII case folding, which is all the blacklist
tokens and keywords in scope use). -/
def pyLower (s : String) : String :=
  s.map Char.toLower

/-- Python's whitespace set for `str.strip()` / `str.split()`. -/
def pyWhitespace (c : Char) : Bool :=
  c = ' ' || c = '\t' || c = '\n' || c = '\r' || c = '\x0B' || c = '\x0C'

/-- Python's `str.strip()`: drop leading and trailing whitespace. -/
def pyStrip (s : String) : String :=
  ⟨((s.toList.dropWhile pyWhitespace).reverse.dropWhile pyWhitespace).reverse⟩

/-- Python's `', '.join(xs)` / `'\n'.join(xs)` style join, written by
recursion so its proofs go by induction. -/
def pyJoin (sep : String) : List String → String
  | [] => ""
  | [a] => a
  | a :: b :: rest => a ++ sep ++ pyJoin sep (b :: rest)

/-- `LegadoService.UNSUPPORTED_KEYWORDS` from
`backend/app/services/legado_service.py`: the fixed host-API blacklist. -/
def UNSUPPORTED_KEYWORDS : List String :=
  [ "java.ajax"
  , "java.get"
  , "java.put"
  , "java.post"
  , "java.base64Encode"
  , "java.base64Decode"
  , "java.getString"
  , "java.toast"
  , "java.log"
  , "java.timeFormat"
  , "java.hexDecodeToString"
  , "source.getVariable"
  , "source.setVariable"
  , "source.getLoginInfoMap"
  , "source.variable" ]

/-- A Source Document, modelled as a flat JSON object with string values
(association list in insertion order, keys unique as in a Python dict). -/
abbrev BookSource : Type := List (String × String)

/-- `json.dumps` escaping for one string scalar (the escapes relevant to
the plain-ASCII blacklist tokens and field names in scope). -/
def jsonEscape (s : String) : String :=
  String.join (s.toList.map fun c =>
    if c = '\\' then "\\\\"
    else if c = '\"' then "\\\""
    else if c = '\n' then "\\n"
    else String.singleton c)

/-- `json.dumps(book_source, ensure_ascii=False)` for a flat
string-valued object: `\x7b"k": "v", ...\x7d` with `', '` / `': '`
separators (Python's defaults). -/
def serializeBookSource (bs : BookSource) : String :=
  "\x7b" ++
    pyJoin ", " (bs.map fun kv => "\"" ++ jsonEscape kv.1 ++ "\": \"" ++ jsonEscape kv.2 ++ "\"")
    ++ "\x7d"

/-- The blacklist scan inside `validate_book_source_compatibility`: keywords
found in the serialized document text, in blacklist order. -/
def foundKeywords (sourceJsonStr : String) : List String :=
  UNSUPPORTED_KEYWORDS.filter fun kw => strContains sourceJsonStr kw

/-- The error message `validate_book_source_compatibility` builds when the
scan finds keywords: first five found joined with `', '`, plus a count of
the rest, plus the fixed explanatory tail. -/
def compatibilityErrorMsg (found : List String) : String :=
  let head :=
    "❌ 此书源使用了不支持的高级JavaScript特性，无法在本平台使用。\n\n"
      ++ "检测到以下不兼容的功能：\n"
      ++ "  • " ++ pyJoin ", " (found.take 5)
  let head :=
    if found.length > 5 then
      head ++ "\n  • ... 以及其他 " ++ toString (found.length - 5) ++ " 个功能"
    else head
  head
    ++ "\n\n💡 本平台仅支持使用简单规则的Legado书源，包括：\n"
    ++ "  ✓ CSS选择器 (如: .item, h3 a@text)\n"
    ++ "  ✓ XPath (如: //div[@class=\x27book\x27])\n"
    ++ "  ✓ JSONPath (如: $.data.list[*])\n"
    ++ "  ✓ 正则表达式\n"
    ++ "  ✓ 简单的JavaScript表达式\n\n"
    ++ "❌ 不支持依赖Legado APP运行时环境的复杂JavaScript代码\n\n"
    ++ "建议：请使用类似笔趣阁这样的简单规则书源。"

/-- `LegadoService.validate_book_source_compatibility`: serialize the
document, scan for blacklisted keywords, and report
`(False, error_message)` when any are present, else `(True, None)`. -/
def validate_book_source_compatibility (bs : BookSource) : Bool × Option String :=
  let found := foundKeywords (serializeBookSource bs)
  if found.isEmpty then (true, none)
  else (false, some (compatibilityErrorMsg found))

/-- `'field' in book_source` key-membership test. -/
def hasKey (bs : List (String × String)) (k : String) : Bool :=
  bs.any fun kv => kv.1 == k

/-- `LegadoService.parse_book_source` on an already-decoded document:
check the required fields `bookSourceName` then `bookSourceUrl` (raising
`ValueError: Missing required field: ...` at the first absent one), then
run the compatibility check (raising its message when incompatible). -/
def parse_book_source (bs : BookSource) : Except String BookSource :=
  if ¬ hasKey bs "bookSourceName" then
    .error "Missing required field: bookSourceName"
  else if ¬ hasKey bs "bookSourceUrl" then
    .error "Missing required field: bookSourceUrl"
  else
    match validate_book_source_compatibility bs with
    | (false, some msg) => .error msg
    | _ => .ok bs

theorem strContains_iff (hay needle : String) :
    strContains hay needle = true ↔ needle.toList <:+: hay.toList := by
  simp [strContains]

theorem toList_append (a b : String) : (a ++ b).toList = a.toList ++ b.toList :=
  String.data_append a b

theorem strContains_append_left (a b needle : String)
    (h : strContains a needle = true) : strContains (a ++ b) needle = true := by
  rw [strContains_iff] at h ⊢
  rw [toList_append]
  exact h.trans ⟨[], b.toList, by simp⟩

theorem strContains_append_right (a b needle : String)
    (h : strContains b needle = true) : strContains (a ++ b) needle = true := by
  rw [strContains_iff] at h ⊢
  rw [toList_append]
  exact h.trans ⟨a.toList, [], by simp⟩

theorem strContains_refl (s : String) : strContains s s = true := by
  rw [strContains_iff]

/-- Every member of a joined list is a substring of the join. -/
theorem strContains_pyJoin (sep : String) (kw : String) :
    ∀ l : List String, kw ∈ l → strContains (pyJoin sep l) kw = true := by
  intro l
  induction l with
  | nil => intro h; cases h
  | cons a rest ih =>
    intro h
    rcases List.mem_cons.mp h with h | h
    · subst h
      cases rest with
      | nil => exact strContains_refl kw
      | cons b r =>
        show strContains (kw ++ sep ++ pyJoin sep (b :: r)) kw = true
        exact strContains_append_left _ _ _
          (strContains_append_left _ _ _ (strContains_refl kw))
    · cases rest with
      | nil => cases h
      | cons b r =>
        show strContains (a ++ sep ++ pyJoin sep (b :: r)) kw = true
        exact strContains_append_right _ _ _ (ih h)

/-- The compatibility error message contains each of the first five found
keywords verbatim. -/
theorem compatibilityErrorMsg_contains_take5 (found : List String) (kw : String)
    (h : kw ∈ found.take 5) :
    strContains (compatibilityErrorMsg found) kw = true := by
  have hjoin : strContains (pyJoin ", " (found.take 5)) kw = true :=
    strContains_pyJoin _ _ _ h
  show strContains (compatibilityErrorMsg found) kw = true
  unfold compatibilityErrorMsg
  by_cases h5 : found.length > 5 <;>
    simp only [h5, if_true, if_false, gt_iff_lt, not_lt] <;>
    repeat' first
      | exact hjoin
      | (apply strContains_append_right _ _ _ hjoin)
      | apply strContains_append_left

/-- When more than five keywords were found, the message contains the
decimal count of the remaining ones. -/
theorem compatibilityErrorMsg_contains_count (found : List String)
    (h5 : found.length > 5) :
    strContains (compatibilityErrorMsg found) (toString (found.length - 5)) = true := by
  unfold compatibilityErrorMsg
  simp only [h5, if_true, gt_iff_lt]
  repeat' first
    | exact strContains_refl _
    | (apply strContains_append_right _ _ _ (strContains_refl _))
    | apply strContains_append_left

/-- C1 (amended): for every Source Document that carries both required
fields (`bookSourceName`, `bookSourceUrl`) and whose serialized JSON text
contains at least one blacklisted host-API token, `parse_book_source`
fails with the compatibility error, whose message names the offending
tokens — it contains each of the first five found verbatim, and, when more
than five were found, the decimal count of the rest. -/
theorem parse_book_source_blacklist_failure (bs : BookSource)
    (hname : hasKey bs "bookSourceName" = true)
    (hurl : hasKey bs "bookSourceUrl" = true)
    (hfound : foundKeywords (serializeBookSource bs) ≠ []) :
    parse_book_source bs =
      .error (compatibilityErrorMsg (foundKeywords (serializeBookSource bs))) ∧
    (∀ kw ∈ (foundKeywords (serializeBookSource bs)).take 5,
      strContains
        (compatibilityErrorMsg (foundKeywords (serializeBookSource bs))) kw = true) ∧
    ((foundKeywords (serializeBookSource bs)).length > 5 →
      strContains (compatibilityErrorMsg (foundKeywords (serializeBookSource bs)))
        (toString ((foundKeywords (serializeBookSource bs)).length - 5)) = true) := by
  refine ⟨?_, fun kw hk => compatibilityErrorMsg_contains_take5 _ kw hk,
    fun h5 => compatibilityErrorMsg_contains_count _ h5⟩
  have hno : (foundKeywords (serializeBookSource bs)).isEmpty = false := by
    rwa [List.isEmpty_eq_false]
  unfold parse_book_source
  rw [hname, hurl]
  simp [validate_book_source_compatibility, hno]

/-- A concrete Source Document that contains the blacklisted token
`java.ajax` but lacks the required `bookSourceName` field. -/
def c1CounterexampleDoc : BookSource :=
  [("bookSourceUrl", "https://example.com"),
   ("searchUrl", "@js: java.ajax(url)")]

set_option maxRecDepth 40000 in
/-- C1 counterexample: a document whose serialized JSON text contains the
blacklisted token `java.ajax` but which lacks `bookSourceName` fails with
the missing-required-field message, which does not name the token — so the
claim as stated (every token-containing document fails with a
token-naming message) is false. -/
theorem c1_counterexample :
    strContains (serializeBookSource c1CounterexampleDoc) "java.ajax" = true ∧
    parse_book_source c1CounterexampleDoc =
      .error "Missing required field: bookSourceName" ∧
    strContains "Missing required field: bookSourceName" "java.ajax" = false := by
  refine ⟨by decide, rfl, by decide⟩

/-- A concrete well-formed Source Document whose search rule uses the
blacklisted token `java.ajax`. -/
def c1WitnessDoc : BookSource :=
  [("bookSourceName", "test"),
   ("bookSourceUrl", "https://example.com"),
   ("searchUrl", "@js: java.ajax(url)")]

set_option maxRecDepth 40000 in
/-- Witness for the amended C1 at a concrete document. -/
theorem parse_book_source_blacklist_failure_witness :
    hasKey c1WitnessDoc "bookSourceName" = true ∧
    hasKey c1WitnessDoc "bookSourceUrl" = true ∧
    foundKeywords (serializeBookSource c1WitnessDoc) ≠ [] ∧
    (parse_book_source c1WitnessDoc =
      .error (compatibilityErrorMsg (foundKeywords (serializeBookSource c1WitnessDoc))) ∧
    (∀ kw ∈ (foundKeywords (serializeBookSource c1WitnessDoc)).take 5,
      strContains
        (compatibilityErrorMsg (foundKeywords (serializeBookSource c1WitnessDoc))) kw = true) ∧
    ((foundKeywords (serializeBookSource c1WitnessDoc)).length > 5 →
      strContains (compatibilityErrorMsg (foundKeywords (serializeBookSource c1WitnessDoc)))
        (toString ((foundKeywords (serializeBookSource c1WitnessDoc)).length - 5)) = true)) :=
  ⟨by decide, by decide, by decide,
    parse_book_source_blacklist_failure c1WitnessDoc (by decide) (by decide) (by decide)⟩

/-! ## `LegadoParser2/Explore.py`: batch extraction (`getExploreResult`) -/

/-- A serialized variable snapshot (`evalJs.dumpVariables()`). -/
abbrev VarMap : Type := List (String × String)

/-- The field-formatting pass (`FormatUtils.Fmt`, whose module is not under
`src/`); kept abstract, as `getExploreResult` only applies these functions
pointwise. -/
structure FmtOps where
  bookName : String → String
  author : String → String
  wordCount : String → String
  html : String → String

/-- Which optional rules the `ruleExplore` object declares (truthiness of
`ruleExplore.get(field, None)`); `bookList`, `name` and `bookUrl` are
always read. -/
structure RuleExplore where
  hasAuthor : Bool
  hasKind : Bool
  hasCoverUrl : Bool
  hasWordCount : Bool
  hasIntro : Bool
  hasLastChapter : Bool
  deriving DecidableEq, Repr

/-- Modelled from the spec: the per-element outcome of the selector
evaluator (`RuleEval.getString` / `getStrings`, whose module is not under
`src/`). Per the spec's Selector Evaluator contract, a selector error or a
post-processing script failure makes the field yield no value, and
`getString` (which takes the first yielded string) then raises
`IndexError`; so each field's outcome is recorded directly: `none` means
the rule yielded no value for this element, `some s` that it yielded `s`;
`getStrings` fields carry the full (possibly empty) value list. -/
structure ElementData where
  name : Option String
  bookUrlList : List String
  author : Option String
  kind : List String
  coverUrl : Option String
  wordCount : Option String
  intro : Option String
  lastChapter : Option String
  vars : VarMap

/-- Modelled from the spec: `getString` yields the first value of the
rule chain, raising `IndexError` (the `Except.error`) when there is none. -/
def getString (outcome : Option String) : Except Unit String :=
  match outcome with
  | some s => .ok s
  | none => .error ()

/-- One extracted explore record (the `bookInfo` dict built per element). -/
structure BookInfo where
  name : String
  bookUrl : String
  author : Option String
  kind : Option String
  coverUrl : Option String
  wordCount : Option String
  intro : Option String
  lastChapter : Option String
  vars : VarMap

/-- The optional-field pattern of the loop body: when the rule is declared,
read the field with `getString` (propagating its `IndexError`) and
post-format the stripped value; otherwise leave the key absent. -/
def optField (present : Bool) (outcome : Option String) (f : String → String) :
    Except Unit (Option String) :=
  if present then (getString outcome).map fun s => some (f (pyStrip s))
  else .ok none

/-- The `try:` body of `getExploreResult`'s per-element loop: build the
`bookInfo` record field by field, any `getString` failure aborting this
element with `IndexError`. -/
def extractBookInfo (fmt : FmtOps) (urljoin : String → String → String)
    (rE : RuleExplore) (rawUrl finalUrl : String) (e : ElementData) :
    Except Unit BookInfo := do
  let name := fmt.bookName (pyStrip (← getString e.name))
  let bookUrl :=
    match e.bookUrlList with
    | u :: _ => urljoin finalUrl (pyStrip u)
    | [] => rawUrl
  let author ← optField rE.hasAuthor e.author fun s => fmt.author s
  let kind := if rE.hasKind then some (pyStrip (pyJoin "," e.kind)) else none
  let coverUrl ← optField rE.hasCoverUrl e.coverUrl fun s => urljoin finalUrl s
  let wordCount ← optField rE.hasWordCount e.wordCount fun s => fmt.wordCount s
  let intro ← optField rE.hasIntro e.intro fun s => fmt.html s
  let lastChapter ← optField rE.hasLastChapter e.lastChapter fun s => s
  pure ⟨name, bookUrl, author, kind, coverUrl, wordCount, intro, lastChapter, e.vars⟩

/-- The `for e in elements:` loop of `getExploreResult`, with its
`except IndexError:` policy: a failing element is skipped, except that
when no record has been collected yet (`not len(exploreResult)`) and
`DEBUG_MODE` is on, the error is re-raised. -/
def exploreLoop (fmt : FmtOps) (urljoin : String → String → String)
    (rE : RuleExplore) (rawUrl finalUrl : String) (debugMode : Bool) :
    List ElementData → List BookInfo → Except Unit (List BookInfo)
  | [], acc => .ok acc
  | e :: rest, acc =>
    match extractBookInfo fmt urljoin rE rawUrl finalUrl e with
    | .ok b => exploreLoop fmt urljoin rE rawUrl finalUrl debugMode rest (acc ++ [b])
    | .error err =>
      if acc.length = 0 then
        if debugMode then .error err
        else exploreLoop fmt urljoin rE rawUrl finalUrl debugMode rest acc
      else exploreLoop fmt urljoin rE rawUrl finalUrl debugMode rest acc

/-- `getExploreResult` (`LegadoParser2/Explore.py`): empty result when the
source declares no `ruleExplore`, otherwise the per-element extraction
loop over the matched listing elements. `DEBUG_MODE` (from the parser's
`config` module, not under `src/`) is passed in explicitly. -/
def getExploreResult (fmt : FmtOps) (urljoin : String → String → String)
    (debugMode : Bool) (ruleExplore : Option RuleExplore)
    (rawUrl finalUrl : String) (elements : List ElementData) :
    Except Unit (List BookInfo) :=
  match ruleExplore with
  | none => .ok []
  | some rE => exploreLoop fmt urljoin rE rawUrl finalUrl debugMode elements []

/-- In non-debug mode the loop is a pure accumulation: it never raises and
keeps exactly the successfully extracted elements, in order. -/
theorem exploreLoop_not_debug (fmt : FmtOps) (urljoin : String → String → String)
    (rE : RuleExplore) (rawUrl finalUrl : String) :
    ∀ (l : List ElementData) (acc : List BookInfo),
      exploreLoop fmt urljoin rE rawUrl finalUrl false l acc =
        .ok (acc ++ l.filterMap fun e =>
          (extractBookInfo fmt urljoin rE rawUrl finalUrl e).toOption) := by
  intro l
  induction l with
  | nil => intro acc; simp [exploreLoop]
  | cons e rest ih =>
    intro acc
    unfold exploreLoop
    cases hx : extractBookInfo fmt urljoin rE rawUrl finalUrl e with
    | ok b => simp [ih, hx, Except.toOption]
    | error err =>
      by_cases hacc : acc.length = 0 <;>
        simp [hacc, ih, hx, Except.toOption]

/-- Once at least one record has been collected, the loop never raises,
whatever the debug mode. -/
theorem exploreLoop_acc_ne_nil_ok (fmt : FmtOps) (urljoin : String → String → String)
    (rE : RuleExplore) (rawUrl finalUrl : String) (debugMode : Bool) :
    ∀ (l : List ElementData) (acc : List BookInfo), acc ≠ [] →
      ∃ res, exploreLoop fmt urljoin rE rawUrl finalUrl debugMode l acc = .ok res := by
  intro l
  induction l with
  | nil => intro acc _; exact ⟨acc, rfl⟩
  | cons e rest ih =>
    intro acc hacc
    unfold exploreLoop
    cases hx : extractBookInfo fmt urljoin rE rawUrl finalUrl e with
    | ok b => exact ih (acc ++ [b]) (by simp)
    | error err =>
      have hlen : ¬ acc.length = 0 := by
        simpa [List.length_eq_zero] using hacc
      simpa [hlen] using ih acc hacc

/-- C2: in a non-debug explore batch extraction, one element's extraction
failure (a field's selector, script, or index error surfacing as
`IndexError` from `getString`) never aborts the sibling elements and never
raises to the caller: the result is exactly the records of the
successfully extracted elements, in order — so 10 elements with only
element #5 failing yield exactly 9 records. -/
theorem explore_non_debug_isolates_element_failures
    (fmt : FmtOps) (urljoin : String → String → String) (rE : RuleExplore)
    (rawUrl finalUrl : String) (elements : List ElementData) :
    getExploreResult fmt urljoin false (some rE) rawUrl finalUrl elements =
      .ok (elements.filterMap fun e =>
        (extractBookInfo fmt urljoin rE rawUrl finalUrl e).toOption) := by
  simpa [getExploreResult] using
    exploreLoop_not_debug fmt urljoin rE rawUrl finalUrl elements []

/-- C6: a batch extraction raises an element's extraction failure to the
caller exactly when debug mode is on and no record has been collected yet
— which, since every earlier element either contributed a record or (being
record-less) would itself have raised, means the very first element of the
batch failed. In non-debug mode, or once a record exists, failures are
suppressed. -/
theorem explore_raises_iff_debug_and_first_element_fails
    (fmt : FmtOps) (urljoin : String → String → String) (rE : RuleExplore)
    (rawUrl finalUrl : String) (debugMode : Bool) (elements : List ElementData)
    (err : Unit) :
    getExploreResult fmt urljoin debugMode (some rE) rawUrl finalUrl elements =
        .error err ↔
      debugMode = true ∧ ∃ e rest, elements = e :: rest ∧
        extractBookInfo fmt urljoin rE rawUrl finalUrl e = .error () := by
  constructor
  · intro h
    cases elements with
    | nil => simp [getExploreResult, exploreLoop] at h
    | cons e rest =>
      simp only [getExploreResult, exploreLoop] at h
      cases hx : extractBookInfo fmt urljoin rE rawUrl finalUrl e with
      | ok b =>
        rw [hx] at h
        dsimp only at h
        obtain ⟨res, hres⟩ :=
          exploreLoop_acc_ne_nil_ok fmt urljoin rE rawUrl finalUrl debugMode rest
            ([] ++ [b]) (by simp)
        rw [hres] at h
        cases h
      | error e0 =>
        rw [hx] at h
        dsimp only at h
        cases debugMode with
        | true => exact ⟨rfl, e, rest, rfl, hx⟩
        | false =>
          rw [exploreLoop_not_debug] at h
          cases h
  · rintro ⟨hdbg, e, rest, hel, hx⟩
    subst hdbg; subst hel
    simp [getExploreResult, exploreLoop, hx]

/-- Every record in the result of a successful loop run either was already
accumulated or comes from a successful element extraction. -/
theorem exploreLoop_ok_mem (fmt : FmtOps) (urljoin : String → String → String)
    (rE : RuleExplore) (rawUrl finalUrl : String) (debugMode : Bool) :
    ∀ (l : List ElementData) (acc res : List BookInfo),
      exploreLoop fmt urljoin rE rawUrl finalUrl debugMode l acc = .ok res →
      ∀ b ∈ res, b ∈ acc ∨
        ∃ e ∈ l, extractBookInfo fmt urljoin rE rawUrl finalUrl e = .ok b := by
  intro l
  induction l with
  | nil =>
    intro acc res h b hb
    cases h
    exact Or.inl hb
  | cons e rest ih =>
    intro acc res h b hb
    unfold exploreLoop at h
    cases hx : extractBookInfo fmt urljoin rE rawUrl finalUrl e with
    | ok b0 =>
      rw [hx] at h
      dsimp only at h
      rcases ih (acc ++ [b0]) res h b hb with hmem | ⟨e1, he1, hx1⟩
      · rcases List.mem_append.mp hmem with hmem | hmem
        · exact Or.inl hmem
        · exact Or.inr ⟨e, List.mem_cons_self e rest, by
            rw [hx]; rw [List.mem_singleton.mp hmem]⟩
      · exact Or.inr ⟨e1, List.mem_cons_of_mem e he1, hx1⟩
    | error e0 =>
      rw [hx] at h
      dsimp only at h
      by_cases hacc : acc.length = 0
      · rw [if_pos hacc] at h
        cases debugMode with
        | true => cases h
        | false =>
          rcases ih acc res h b hb with hmem | ⟨e1, he1, hx1⟩
          · exact Or.inl hmem
          · exact Or.inr ⟨e1, List.mem_cons_of_mem e he1, hx1⟩
      · rw [if_neg hacc] at h
        rcases ih acc res h b hb with hmem | ⟨e1, he1, hx1⟩
        · exact Or.inl hmem
        · exact Or.inr ⟨e1, List.mem_cons_of_mem e he1, hx1⟩

/-- A successful element extraction resolves the record's book URL from
the extracted URL list and the fetch URLs. -/
theorem extractBookInfo_bookUrl (fmt : FmtOps) (urljoin : String → String → String)
    (rE : RuleExplore) (rawUrl finalUrl : String) (e : ElementData) (b : BookInfo)
    (h : extractBookInfo fmt urljoin rE rawUrl finalUrl e = .ok b) :
    b.bookUrl =
      match e.bookUrlList with
      | u :: _ => urljoin finalUrl (pyStrip u)
      | [] => rawUrl := by
  unfold extractBookInfo at h
  simp only [bind, Except.bind, pure, Except.pure] at h
  repeat' split at h
  all_goals cases h
  all_goals rfl

/-- C8: every explore record emitted by `getExploreResult` carries a book
URL equal to the first extracted URL value, trimmed and joined against the
final (post-redirect) URL of the fetched page, when the `bookUrl` rule
yielded at least one value — and equal to the originating requested URL of
the fetch when it yielded none. -/
theorem explore_record_bookUrl_resolution
    (fmt : FmtOps) (urljoin : String → String → String) (rE : RuleExplore)
    (rawUrl finalUrl : String) (debugMode : Bool) (elements : List ElementData)
    (records : List BookInfo) (b : BookInfo)
    (hok : getExploreResult fmt urljoin debugMode (some rE) rawUrl finalUrl elements =
      .ok records)
    (hb : b ∈ records) :
    ∃ e ∈ elements,
      extractBookInfo fmt urljoin rE rawUrl finalUrl e = .ok b ∧
      b.bookUrl =
        match e.bookUrlList with
        | u :: _ => urljoin finalUrl (pyStrip u)
        | [] => rawUrl := by
  have := exploreLoop_ok_mem fmt urljoin rE rawUrl finalUrl debugMode elements []
    records (by simpa [getExploreResult] using hok) b hb
  rcases this with hmem | ⟨e, he, hx⟩
  · cases hmem
  · exact ⟨e, he, hx, extractBookInfo_bookUrl fmt urljoin rE rawUrl finalUrl e b hx⟩

/-- Identity formatting pass, for concrete evaluation. -/
def fmtId : FmtOps := ⟨fun s => s, fun s => s, fun s => s, fun s => s⟩

/-- Concrete URL join (plain concatenation suffices for the witnesses). -/
def ujConcat : String → String → String := fun base rel => base ++ rel

/-- Explore rule set declaring none of the optional fields. -/
def rENone : RuleExplore := ⟨false, false, false, false, false, false⟩

/-- A concrete listing element whose `bookUrl` rule yielded one value. -/
def c8Elem : ElementData :=
  ⟨some "Book A", ["/b/1.html"], none, [], none, none, none, none, ([] : VarMap)⟩

/-- The record the explore loop emits for `c8Elem`. -/
def c8Record : BookInfo :=
  ⟨"Book A", "https://final.example/b/1.html", none, none, none, none, none, none,
    ([] : VarMap)⟩

/-- Witness for C8 at a concrete one-element listing page. -/
theorem explore_record_bookUrl_resolution_witness :
    getExploreResult fmtId ujConcat false (some rENone)
        "https://raw.example" "https://final.example" [c8Elem] = .ok [c8Record] ∧
    c8Record ∈ [c8Record] ∧
    ∃ e ∈ [c8Elem],
      extractBookInfo fmtId ujConcat rENone "https://raw.example" "https://final.example" e =
        .ok c8Record ∧
      c8Record.bookUrl =
        match e.bookUrlList with
        | u :: _ => ujConcat "https://final.example" (pyStrip u)
        | [] => "https://raw.example" :=
  ⟨rfl, List.mem_singleton.mpr rfl,
    explore_record_bookUrl_resolution fmtId ujConcat rENone
      "https://raw.example" "https://final.example" false [c8Elem] [c8Record] c8Record
      rfl (List.mem_singleton.mpr rfl)⟩

/-! ## `backend/app/api/search.py`: single-source search and fan-out -/

/-- One raw search record from the parser pipeline, with each field already
read off as `result.get(key, default)` does (`name`/`author` default to
`''`, the rest to `None`/`\x7b\x7d`). -/
structure RawResult where
  name : String
  author : String
  bookUrl : String
  coverUrl : Option String
  intro : Option String
  kind : Option String
  lastChapter : Option String
  wordCount : Option String
  vars : VarMap
  deriving DecidableEq, Repr

/-- The API's `SearchResult` response model. -/
structure SearchResult where
  name : String
  author : String
  book_url : String
  cover_url : Option String
  intro : Option String
  kind : Option String
  last_chapter : Option String
  word_count : Option String
  source_id : Nat
  source_name : String
  vars : VarMap
  deriving DecidableEq, Repr

/-- The `SearchResult(...)` construction shared by `_search_single_source`
and `search_books_by_source`. -/
def toSearchResult (sid : Nat) (sname : String) (r : RawResult) : SearchResult :=
  ⟨r.name, r.author, r.bookUrl, r.coverUrl, r.intro, r.kind, r.lastChapter,
    r.wordCount, sid, sname, r.vars⟩

/-- The `should_include` keyword check of `_search_single_source` /
`search_books_by_source`: keywords of length at least 2 must occur
case-insensitively in the name, or in the author when the author is
non-empty; shorter keywords filter nothing. -/
def shouldInclude (keyword name author : String) : Bool :=
  if 2 ≤ keyword.length then
    strContains (pyLower name) (pyLower keyword)
      || (!(author == "") && strContains (pyLower author) (pyLower keyword))
  else true

/-- The results a page's raw list contributes after keyword filtering. -/
def keptResults (results : List RawResult) (keyword : String) : List RawResult :=
  results.filter fun r => shouldInclude keyword r.name r.author

/-- The loop body of `search_books_by_source` over one page of raw
results: filter by keyword, then build `SearchResult` objects. -/
def search_books_by_source_results (results : List RawResult) (keyword : String)
    (sid : Nat) (sname : String) : List SearchResult :=
  (keptResults results keyword).map (toSearchResult sid sname)

/-- `max_pages = 3` of `_search_single_source`. -/
def MAX_PAGES : Nat := 3

/-- The `for current_page in range(page, page + max_pages)` loop of
`_search_single_source`, with the requested-page log made explicit (first
component). Stops on an empty page before filtering, and after filtering
when the page's raw count is below 5; an exception anywhere in the loop
aborts with that error (discarding the partial `all_results`). -/
def searchPagesLoop (fetch : Nat → Except String (List RawResult)) (keyword : String)
    (sid : Nat) (sname : String) :
    Nat → Nat → List SearchResult → List Nat →
      List Nat × Except String (List SearchResult)
  | 0, _, acc, log => (log, .ok acc)
  | fuel + 1, p, acc, log =>
    match fetch p with
    | .error e => (log ++ [p], .error e)
    | .ok results =>
      if results.isEmpty then (log ++ [p], .ok acc)
      else
        let acc := acc ++ search_books_by_source_results results keyword sid sname
        if results.length < 5 then (log ++ [p], .ok acc)
        else searchPagesLoop fetch keyword sid sname fuel (p + 1) acc (log ++ [p])

/-- `_search_single_source`: run the page loop inside `try:` and return
`[]` on any exception. -/
def _search_single_source (fetch : Nat → Except String (List RawResult))
    (sid : Nat) (sname : String) (keyword : String) (page : Nat) : List SearchResult :=
  match (searchPagesLoop fetch keyword sid sname MAX_PAGES page [] []).2 with
  | .ok l => l
  | .error _ => []

/-- The pages `_search_single_source` requested, in request order. -/
def requestedPages (fetch : Nat → Except String (List RawResult))
    (keyword : String) (sid : Nat) (sname : String) (page : Nat) : List Nat :=
  (searchPagesLoop fetch keyword sid sname MAX_PAGES page [] []).1

/-- One enabled book source as the fan-out sees it: identity plus its
single-page search pipeline (`LegadoService.search` on the compiled
source, which may raise). -/
structure Source where
  id : Nat
  name : String
  fetch : Nat → Except String (List RawResult)

/-- The gather-all endpoint `search_books`: one `_search_single_source`
task per source, `asyncio.gather` over them, then concatenation of the
per-source result lists (each task returns a list; a task's internal
failure already became `[]`). -/
def search_books (sources : List Source) (keyword : String) (page : Nat) :
    List SearchResult :=
  (sources.map fun s => _search_single_source s.fetch s.id s.name keyword page).flatten

/-- The stream endpoint `search_books_stream`: one event per source
carrying that source's id, name and result list (emitted even when the
list is empty). Completion order is concurrency-dependent; the events are
modelled in submission order. -/
def search_books_stream_events (sources : List Source) (keyword : String) (page : Nat) :
    List (Nat × String × List SearchResult) :=
  sources.map fun s => (s.id, s.name, _search_single_source s.fetch s.id s.name keyword page)

/-- C3: in the multi-source fan-out (gather-all endpoint and stream
endpoint alike), a source whose search task raises internally contributes
an empty result set for that source only: with sources 1, 2, 3 and source
2's task raising, the gathered batch is exactly source 1's results
followed by source 3's, and the stream emits source 2's event with an
empty list while sources 1 and 3 keep their complete result sets. -/
theorem fanout_isolates_failing_source (s1 s2 s3 : Source) (keyword : String) (page : Nat)
    (herr : ∃ e, (searchPagesLoop s2.fetch keyword s2.id s2.name MAX_PAGES page [] []).2 =
      .error e) :
    search_books [s1, s2, s3] keyword page =
      _search_single_source s1.fetch s1.id s1.name keyword page ++
        _search_single_source s3.fetch s3.id s3.name keyword page ∧
    search_books_stream_events [s1, s2, s3] keyword page =
      [(s1.id, s1.name, _search_single_source s1.fetch s1.id s1.name keyword page),
       (s2.id, s2.name, []),
       (s3.id, s3.name, _search_single_source s3.fetch s3.id s3.name keyword page)] := by
  obtain ⟨e, he⟩ := herr
  have h2 : _search_single_source s2.fetch s2.id s2.name keyword page = [] := by
    unfold _search_single_source
    rw [he]
  constructor
  · simp [search_books, h2]
  · simp [search_books_stream_events, h2]

/-- A raw result whose name contains the test keyword `ab`. -/
def rawHit : RawResult :=
  ⟨"AB story", "someone", "https://s1.example/b/1", none, none, none, none, none,
    ([] : VarMap)⟩

/-- Fan-out witness source 1: one page with one matching result. -/
def s1W : Source := ⟨1, "S1", fun _ => .ok [rawHit]⟩

/-- Fan-out witness source 2: its task raises on every page. -/
def s2W : Source := ⟨2, "S2", fun _ => .error "connection reset"⟩

/-- Fan-out witness source 3: same single result as source 1. -/
def s3W : Source := ⟨3, "S3", fun _ => .ok [rawHit]⟩

/-- Witness for C3 with three concrete sources, source 2 raising. -/
theorem fanout_isolates_failing_source_witness :
    (∃ e, (searchPagesLoop s2W.fetch "ab" s2W.id s2W.name MAX_PAGES 1 [] []).2 =
      .error e) ∧
    (search_books [s1W, s2W, s3W] "ab" 1 =
      _search_single_source s1W.fetch s1W.id s1W.name "ab" 1 ++
        _search_single_source s3W.fetch s3W.id s3W.name "ab" 1 ∧
    search_books_stream_events [s1W, s2W, s3W] "ab" 1 =
      [(s1W.id, s1W.name, _search_single_source s1W.fetch s1W.id s1W.name "ab" 1),
       (s2W.id, s2W.name, []),
       (s3W.id, s3W.name, _search_single_source s3W.fetch s3W.id s3W.name "ab" 1)]) :=
  ⟨⟨"connection reset", rfl⟩,
    fanout_isolates_failing_source s1W s2W s3W "ab" 1 ⟨"connection reset", rfl⟩⟩

/-- The keyword check, restated as the spec phrases it. -/
theorem shouldInclude_iff (keyword name author : String) (h : 1 ≤ keyword.length) :
    shouldInclude keyword name author = true ↔
      (keyword.length = 1 ∨
        (2 ≤ keyword.length ∧
          (strContains (pyLower name) (pyLower keyword) = true ∨
            (author ≠ "" ∧ strContains (pyLower author) (pyLower keyword) = true)))) := by
  unfold shouldInclude
  by_cases h2 : 2 ≤ keyword.length
  · rw [if_pos h2]
    have h1 : ¬ keyword.length = 1 := by omega
    simp [h1, h2]
  · rw [if_neg h2]
    have h1 : keyword.length = 1 := by omega
    simp [h1]

/-- C4: client-side keyword filtering keeps a raw result exactly when
either the keyword has length 1 (no filtering), or it has length at least
2 and occurs case-insensitively in the result's name or in its non-empty
author. -/
theorem keyword_filter_keeps_iff (keyword : String) (results : List RawResult)
    (r : RawResult) (h : 1 ≤ keyword.length) :
    r ∈ keptResults results keyword ↔
      r ∈ results ∧
        (keyword.length = 1 ∨
          (2 ≤ keyword.length ∧
            (strContains (pyLower r.name) (pyLower keyword) = true ∨
              (r.author ≠ "" ∧
                strContains (pyLower r.author) (pyLower keyword) = true)))) := by
  rw [keptResults, List.mem_filter, shouldInclude_iff keyword r.name r.author h]

/-- A raw result matching neither by name nor by author. -/
def rawMiss : RawResult :=
  ⟨"other", "", "https://s1.example/b/2", none, none, none, none, none, ([] : VarMap)⟩

/-- Witness for C4 on a concrete two-element page with keyword `ab`. -/
theorem keyword_filter_keeps_iff_witness :
    1 ≤ ("ab" : String).length ∧
    (rawHit ∈ keptResults [rawHit, rawMiss] "ab" ↔
      rawHit ∈ [rawHit, rawMiss] ∧
        (("ab" : String).length = 1 ∨
          (2 ≤ ("ab" : String).length ∧
            (strContains (pyLower rawHit.name) (pyLower "ab") = true ∨
              (rawHit.author ≠ "" ∧
                strContains (pyLower rawHit.author) (pyLower "ab") = true))))) :=
  ⟨by decide, keyword_filter_keeps_iff "ab" [rawHit, rawMiss] rawHit (by decide)⟩

/-- C5: a single-source search task starting at page `p` requests pages
strictly sequentially (the request log is the consecutive range starting
at `p`), requests at most the fixed cap of 3 pages, and stops at the first
page whose raw (pre-filter) result list is empty or shorter than 5. -/
theorem search_pagination_sequential_capped
    (fetch : Nat → Except String (List RawResult)) (keyword : String)
    (sid : Nat) (sname : String) (page : Nat)
    (hok : ∀ n, ∃ rs, fetch n = .ok rs) :
    0 < (requestedPages fetch keyword sid sname page).length ∧
    (requestedPages fetch keyword sid sname page).length ≤ MAX_PAGES ∧
    requestedPages fetch keyword sid sname page =
      List.range' page (requestedPages fetch keyword sid sname page).length ∧
    (∀ i, i + 1 < (requestedPages fetch keyword sid sname page).length →
      ∃ rs, fetch (page + i) = .ok rs ∧ 5 ≤ rs.length) ∧
    ((requestedPages fetch keyword sid sname page).length < MAX_PAGES →
      ∃ rs,
        fetch (page + ((requestedPages fetch keyword sid sname page).length - 1)) =
          .ok rs ∧ rs.length < 5) := by
  obtain ⟨rs1, h1⟩ := hok page
  by_cases c1 : rs1.length < 5
  · have hlog : requestedPages fetch keyword sid sname page = [page] := by
      unfold requestedPages MAX_PAGES searchPagesLoop
      rw [h1]
      by_cases he : rs1.isEmpty <;> simp [he, c1]
    rw [hlog]
    refine ⟨by simp, by simp [MAX_PAGES], by simp [List.range'], ?_, ?_⟩
    · intro i hi
      simp at hi
    · intro _
      exact ⟨rs1, h1, c1⟩
  · have hne1 : rs1.isEmpty = false := by
      cases rs1 with
      | nil => simp at c1
      | cons a l => rfl
    obtain ⟨rs2, h2⟩ := hok (page + 1)
    by_cases c2 : rs2.length < 5
    · have hlog : requestedPages fetch keyword sid sname page = [page, page + 1] := by
        unfold requestedPages MAX_PAGES searchPagesLoop
        rw [h1]
        simp only [hne1, Bool.false_eq_true, if_false, c1, if_neg]
        unfold searchPagesLoop
        rw [h2]
        by_cases he : rs2.isEmpty <;> simp [he, c2]
      rw [hlog]
      refine ⟨by simp, by simp [MAX_PAGES], by simp [List.range'], ?_, ?_⟩
      · intro i hi
        simp only [List.length_cons, List.length_nil] at hi
        have hi0 : i = 0 := by omega
        subst hi0
        exact ⟨rs1, h1, by omega⟩
      · intro _
        exact ⟨rs2, h2, c2⟩
    · have hne2 : rs2.isEmpty = false := by
        cases rs2 with
        | nil => simp at c2
        | cons a l => rfl
      obtain ⟨rs3, h3⟩ := hok (page + 2)
      have h3' : fetch (page + 1 + 1) = .ok rs3 := h3
      have hlog : requestedPages fetch keyword sid sname page =
          [page, page + 1, page + 2] := by
        unfold requestedPages MAX_PAGES searchPagesLoop
        rw [h1]
        simp only [hne1, Bool.false_eq_true, if_false, c1, if_neg]
        unfold searchPagesLoop
        rw [h2]
        simp only [hne2, Bool.false_eq_true, if_false, c2, if_neg]
        unfold searchPagesLoop
        rw [h3']
        by_cases he : rs3.isEmpty
        · simp [he]
        · by_cases c3 : rs3.length < 5
          · simp [he, c3]
          · simp [he, c3, searchPagesLoop]
      rw [hlog]
      refine ⟨by simp, by simp [MAX_PAGES], rfl, ?_, ?_⟩
      · intro i hi
        simp only [List.length_cons, List.length_nil] at hi
        match i with
        | 0 => exact ⟨rs1, h1, by omega⟩
        | 1 => exact ⟨rs2, h2, by omega⟩
        | n + 2 => omega
      · intro hlt
        simp [MAX_PAGES] at hlt

/-- A fetch whose every page is empty. -/
def fetchEmpty : Nat → Except String (List RawResult) := fun _ => .ok []

/-- Witness for C5 with `fetchEmpty`, starting at page 1 (the task stops
after the single empty page). -/
theorem search_pagination_sequential_capped_witness :
    (∀ n, ∃ rs, fetchEmpty n = .ok rs) ∧
    (0 < (requestedPages fetchEmpty "ab" 1 "S1" 1).length ∧
    (requestedPages fetchEmpty "ab" 1 "S1" 1).length ≤ MAX_PAGES ∧
    requestedPages fetchEmpty "ab" 1 "S1" 1 =
      List.range' 1 (requestedPages fetchEmpty "ab" 1 "S1" 1).length ∧
    (∀ i, i + 1 < (requestedPages fetchEmpty "ab" 1 "S1" 1).length →
      ∃ rs, fetchEmpty (1 + i) = .ok rs ∧ 5 ≤ rs.length) ∧
    ((requestedPages fetchEmpty "ab" 1 "S1" 1).length < MAX_PAGES →
      ∃ rs,
        fetchEmpty (1 + ((requestedPages fetchEmpty "ab" 1 "S1" 1).length - 1)) =
          .ok rs ∧ rs.length < 5)) :=
  ⟨fun _ => ⟨[], rfl⟩,
    search_pagination_sequential_capped fetchEmpty "ab" 1 "S1" 1 fun _ => ⟨[], rfl⟩⟩

/-! ## `backend/app/services/legado_service.py`: wrapper operations,
`backend/app/api/books.py` and `backend/app/services/download_service.py` -/

/-- A parser-pipeline record: a JSON-shaped dict with string values, in
insertion order. -/
abbrev Record : Type := List (String × String)

/-- Python's `content.split('\n')` (single-character separator: empty
pieces between consecutive newlines are kept). -/
def pySplitNl (s : String) : List String :=
  (s.toList.splitOn '\n').map fun cs => (⟨cs⟩ : String)

/-- The content-formatting pass inside `get_chapter_content`: split the
text on newlines, strip each paragraph, drop empty ones, wrap each in
`<p>...</p>`, and join with newlines. -/
def formatContent (content : String) : String :=
  pyJoin "\n" ((pySplitNl content).filterMap fun para =>
    let para := pyStrip para
    if para = "" then none else some ("<p>" ++ para ++ "</p>"))

/-- `dict[key] = value` on a record: replace the value in place, keeping
the key's position. -/
def setKey : Record → String → String → Record
  | [], _, _ => []
  | kv :: rest, k, v => (if kv.1 = k then (k, v) else kv) :: setKey rest k v

namespace LegadoService

/-- `LegadoService.search`: run the pipeline inside `try:`; an exception
or a falsy return (`None`, `[]`) becomes `[]`. -/
def search (pipeline : Except String (Option (List Record))) : List Record :=
  match pipeline with
  | .error _ => []
  | .ok none => []
  | .ok (some rs) => if rs.isEmpty then [] else rs

/-- `LegadoService.explore`: same error policy as `search`. -/
def explore (pipeline : Except String (Option (List Record))) : List Record :=
  match pipeline with
  | .error _ => []
  | .ok none => []
  | .ok (some rs) => if rs.isEmpty then [] else rs

/-- `LegadoService.get_chapter_list`: same error policy as `search`. -/
def get_chapter_list (pipeline : Except String (Option (List Record))) : List Record :=
  match pipeline with
  | .error _ => []
  | .ok none => []
  | .ok (some rs) => if rs.isEmpty then [] else rs

/-- `LegadoService.get_book_info`: the pipeline's value, or `None` when it
raised. -/
def get_book_info (pipeline : Except String (Option Record)) : Option Record :=
  match pipeline with
  | .error _ => none
  | .ok r => r

/-- `LegadoService.get_chapter_content`: on a truthy result that has a
`content` key, replace that field with its paragraph-normalized form;
`None` on an exception. -/
def get_chapter_content (pipeline : Except String (Option Record)) : Option Record :=
  match pipeline with
  | .error _ => none
  | .ok none => none
  | .ok (some result) =>
    if !result.isEmpty && hasKey result "content" then
      some (setKey result "content"
        (formatContent ((List.lookup "content" result).getD "")))
    else some result

end LegadoService

/-- `book_info.get('tocUrl', book_url)` as the `/books/info` endpoint
builds `BookInfoResponse.toc_url` (`backend/app/api/books.py`). -/
def get_book_info_response_toc_url (book_info : Record) (book_url : String) : String :=
  (List.lookup "tocUrl" book_info).getD book_url

/-- `book_info.get('tocUrl', book_url)` as `DownloadService.download_book`
resolves the chapter-list URL (`backend/app/services/download_service.py`). -/
def download_book_toc_url (book_info : Record) (book_url : String) : String :=
  (List.lookup "tocUrl" book_info).getD book_url

/-- A record has a key exactly when looking it up yields a value. -/
theorem hasKey_iff_lookup (rec : Record) (k : String) :
    hasKey rec k = true ↔ ∃ v, List.lookup k rec = some v := by
  induction rec with
  | nil => simp [hasKey]
  | cons kv rest ih =>
    by_cases hk : kv.1 = k
    · simp [hasKey, List.lookup, hk]
    · have hk2 : (kv.1 == k) = false := beq_eq_false_iff_ne.mpr hk
      have hk3 : (k == kv.1) = false := beq_eq_false_iff_ne.mpr (Ne.symm hk)
      simp only [hasKey, List.any_cons, hk2, Bool.false_or, List.lookup, hk3]
      simpa [hasKey] using ih

/-- Replacing a key's value changes exactly that key's lookup. -/
theorem lookup_setKey_self (rec : Record) (k v : String)
    (h : hasKey rec k = true) : List.lookup k (setKey rec k v) = some v := by
  induction rec with
  | nil => simp [hasKey] at h
  | cons kv rest ih =>
    by_cases hk : kv.1 = k
    · rw [setKey, if_pos hk]
      simp [List.lookup]
    · rw [setKey, if_neg hk]
      have hk3 : (k == kv.1) = false := beq_eq_false_iff_ne.mpr (Ne.symm hk)
      have hrest : hasKey rest k = true := by
        simpa [hasKey, beq_eq_false_iff_ne.mpr hk] using h
      simp [List.lookup, hk3, ih hrest]

/-- Lookups at other keys are untouched by `setKey`. -/
theorem lookup_setKey_ne (rec : Record) (k v k' : String) (h : k' ≠ k) :
    List.lookup k' (setKey rec k v) = List.lookup k' rec := by
  induction rec with
  | nil => rfl
  | cons kv rest ih =>
    by_cases hk : kv.1 = k
    · rw [setKey, if_pos hk]
      have h1 : (k' == k) = false := beq_eq_false_iff_ne.mpr h
      have h2 : (k' == kv.1) = false := by rw [hk]; exact h1
      simp [List.lookup, h1, h2, ih]
    · rw [setKey, if_neg hk]
      by_cases he : k' = kv.1
      · simp [List.lookup, he]
      · have h2 : (k' == kv.1) = false := beq_eq_false_iff_ne.mpr he
        simp [List.lookup, h2, ih]

/-- C7: whenever `get_chapter_content` returns a record carrying a
`content` field, that field is the paragraph-normalized form of the
pipeline's extracted text (split on newlines, strip, drop empties, wrap in
`<p>...</p>`, join with newlines), and every other field of the record —
such as the next-chapter URL — is unchanged. -/
theorem chapter_content_paragraph_normalization
    (pipeline : Except String (Option Record)) (rec : Record)
    (h : LegadoService.get_chapter_content pipeline = some rec)
    (hkey : hasKey rec "content" = true) :
    ∃ orig raw, pipeline = .ok (some orig) ∧
      List.lookup "content" orig = some raw ∧
      List.lookup "content" rec = some (formatContent raw) ∧
      ∀ k, k ≠ "content" → List.lookup k rec = List.lookup k orig := by
  match pipeline with
  | .error e => simp [LegadoService.get_chapter_content] at h
  | .ok none => simp [LegadoService.get_chapter_content] at h
  | .ok (some result) =>
    by_cases hc : (!result.isEmpty && hasKey result "content") = true
    · rw [LegadoService.get_chapter_content, if_pos hc] at h
      have hck : hasKey result "content" = true := (Bool.and_eq_true _ _ |>.mp hc).2
      obtain ⟨raw, hraw⟩ := (hasKey_iff_lookup result "content").mp hck
      refine ⟨result, raw, rfl, hraw, ?_, ?_⟩
      · rw [← Option.some_inj.mp h, lookup_setKey_self result "content" _ hck, hraw]
        rfl
      · intro k hk
        rw [← Option.some_inj.mp h, lookup_setKey_ne result "content" _ k hk]
    · rw [LegadoService.get_chapter_content, if_neg hc] at h
      rw [← Option.some_inj.mp h] at hkey
      rcases result with _ | ⟨kv, rest⟩
      · simp [hasKey] at hkey
      · simp [hkey] at hc

/-- A concrete chapter-content pipeline result with raw multi-line text. -/
def c7Pipeline : Except String (Option Record) :=
  .ok (some [("content", "  Hello 

 World "), ("nextUrl", "https://n.example/2")])

/-- Witness for C7 at a concrete chapter record. -/
theorem chapter_content_paragraph_normalization_witness :
    (∃ rec, LegadoService.get_chapter_content c7Pipeline = some rec ∧
      hasKey rec "content" = true ∧
      (∃ orig raw, c7Pipeline = .ok (some orig) ∧
        List.lookup "content" orig = some raw ∧
        List.lookup "content" rec = some (formatContent raw) ∧
        ∀ k, k ≠ "content" → List.lookup k rec = List.lookup k orig)) :=
  ⟨[("content", "<p>Hello</p>
<p>World</p>"), ("nextUrl", "https://n.example/2")],
    by decide, by decide,
    chapter_content_paragraph_normalization c7Pipeline _ (by decide) (by decide)⟩

/-- C9: the table-of-contents URL is the extracted `tocUrl` field when the
record carries one and the input book URL otherwise, and the book-info API
endpoint and the download pipeline resolve it identically. -/
theorem toc_url_default_consistent (info : Record) (book_url : String) :
    get_book_info_response_toc_url info book_url = download_book_toc_url info book_url ∧
    get_book_info_response_toc_url info book_url =
      (match List.lookup "tocUrl" info with
       | some v => v
       | none => book_url) := by
  refine ⟨rfl, ?_⟩
  cases h : List.lookup "tocUrl" info <;>
    simp [get_book_info_response_toc_url, h]

/-- C10: the `LegadoService` wrapper operations never propagate a pipeline
exception: `search`, `explore` and `get_chapter_list` return `[]` when the
pipeline raises or returns a falsy value and the result list otherwise,
and `get_book_info` and `get_chapter_content` return `None` when the
pipeline raises. -/
theorem legado_service_wrappers_never_raise
    (e : String) (r : Record) (rs : List Record) :
    LegadoService.search (.error e) = [] ∧
    LegadoService.search (.ok none) = [] ∧
    LegadoService.search (.ok (some [])) = [] ∧
    LegadoService.search (.ok (some (r :: rs))) = r :: rs ∧
    LegadoService.explore (.error e) = [] ∧
    LegadoService.explore (.ok none) = [] ∧
    LegadoService.explore (.ok (some [])) = [] ∧
    LegadoService.explore (.ok (some (r :: rs))) = r :: rs ∧
    LegadoService.get_chapter_list (.error e) = [] ∧
    LegadoService.get_chapter_list (.ok none) = [] ∧
    LegadoService.get_chapter_list (.ok (some [])) = [] ∧
    LegadoService.get_chapter_list (.ok (some (r :: rs))) = r :: rs ∧
    LegadoService.get_book_info (.error e) = none ∧
    LegadoService.get_chapter_content (.error e) = none := by
  refine ⟨rfl, rfl, rfl, ?_, rfl, rfl, rfl, ?_, rfl, rfl, rfl, ?_, rfl, rfl⟩ <;>
    simp [LegadoService.search, LegadoService.explore, LegadoService.get_chapter_list]

end Novel
